import Mathlib

/-!
Shallow embedding of the scan-execution engine of the n8n Prisma AIRS
community node (source: src/nodes/PrismaAirs/PrismaAirs.node.ts and
src/credentials/PrismaAirsApi.credentials.ts), together with theorems
settling the frozen claims about it.

JavaScript idioms are embedded explicitly: the string fallback `a || b`
becomes `strOr`, numeric `a || b` becomes `jsOrInt`, `Math.round(a / b)`
on non-negative values becomes `jsRoundDiv`, and thrown errors become
`Except.error`.
-/

namespace PrismaAirs

/-- JS string fallback `a || b`: the empty string is falsy. -/
def strOr (a b : String) : String := if a = "" then b else a

/-- JS `o.getD` on an optional string field where `undefined` reads as empty. -/
def orEmpty (o : Option String) : String :=
  match o with
  | some s => s
  | none => ""

/-- JS numeric fallback `a || b`: 0 (and absence) is falsy. -/
def jsOrInt (value : Option Int) (fallback : Int) : Int :=
  match value with
  | some v => if v = 0 then fallback else v
  | none => fallback

/-- JS `Math.round (a / b)` for non-negative integers a and b > 0:
round-half-up of the exact quotient. -/
def jsRoundDiv (a b : Nat) : Nat := (2 * a + b) / (2 * b)

/-- Wire-format content entry of a scan request (interface ScanContent). -/
structure ScanContent where
  prompt : Option String
  response : Option String
  context : Option String
  deriving Repr, DecidableEq

/-- The ai_profile object of a scan request: at most one of the two fields
is populated (interface ScanRequest.ai_profile). -/
structure AiProfile where
  profile_name : Option String
  profile_id : Option String
  deriving Repr, DecidableEq

/-- Metadata block of a scan request (interface ScanRequest.metadata). -/
structure ScanMetadata where
  app_user : String
  ai_model : String
  application_name : String
  deriving Repr, DecidableEq

/-- Wire-format scan request (interface ScanRequest). -/
structure ScanRequest where
  tr_id : String
  ai_profile : AiProfile
  metadata : ScanMetadata
  contents : List ScanContent
  deriving Repr, DecidableEq

/-- PrismaAirs.getBaseURL: maps a region selector to a base URL, throwing
an ApplicationError for anything that is not eu or us (node.ts lines
275 to 279). The thrown error is modelled as Except.error. -/
def getBaseURL (region : String) : Except String String :=
  if region = "eu" then .ok ("https://service-de.api.aisecurity.paloaltonetworks.com")
  else if region = "us" then .ok ("https://service.api.aisecurity.paloaltonetworks.com")
  else .error ("Unknown region \"" ++ region ++ "\". Expected \"us\" or \"eu\".")

/-- The region option values offered by the credential type
(credentials file, Region property options). -/
def credentialRegionOptions : List String :=
  ["us", "eu", "in", "custom"]

/-- The base-URL expression of the credential test request (credentials
file, test.request.baseURL): resolves every one of the four region
option values, falling back to the US endpoint. -/
def credentialTestBaseURL (region customBaseUrl : String) : String :=
  if region = "custom" then customBaseUrl
  else if region = "eu" then "https://service-de.api.aisecurity.paloaltonetworks.com"
  else if region = "in" then "https://service-in.api.aisecurity.paloaltonetworks.com"
  else "https://service.api.aisecurity.paloaltonetworks.com"

/-- Size ceiling per scan mode: 2 MiB for sync, 5 MiB otherwise
(node.ts line 837). -/
def maxSizeFor (scanMode : String) : Nat :=
  if scanMode = "sync" then 2 * 1024 * 1024 else 5 * 1024 * 1024

/-- PrismaAirs.validateContentSize (node.ts lines 835 to 844):
measures the UTF-8 byte size of the content and throws when it exceeds
the per-mode ceiling, with a message carrying the rounded sizes in MB. -/
def validateContentSize (content : String) (scanMode : String) : Except String Unit :=
  let contentSize := content.utf8ByteSize
  let maxSize := maxSizeFor scanMode
  if contentSize > maxSize then
    .error ("Content size (" ++ toString (jsRoundDiv contentSize (1024 * 1024)) ++
      "MB) exceeds " ++ scanMode ++ " scan limit (" ++
      toString (jsRoundDiv maxSize (1024 * 1024)) ++ "MB)")
  else .ok ()

/-- The promptScan branch of execute (node.ts lines 638 to 642):
validation runs first, so no scan content is built (and hence no request
is sent) when the size check fails. -/
def promptScanPrepare (content scanMode : String) : Except String ScanContent := do
  let _ ← validateContentSize content scanMode
  .ok { prompt := some content, response := none, context := none }

/-- Hex digit as matched by the character classes of the UUID regex with
the case-insensitive flag. -/
def isUuidHexDigit (c : Char) : Bool :=
  c.isDigit || (('a' ≤ c) && (c ≤ 'f')) || (('A' ≤ c) && (c ≤ 'F'))

/-- Consume exactly n hex digits from the front of the character list,
returning the remainder. -/
def hexRun : List Char → Nat → Option (List Char)
  | rest, 0 => some rest
  | [], _ + 1 => none
  | c :: rest, k + 1 => if isUuidHexDigit c then hexRun rest k else none

/-- Consume one dash from the front of the character list. -/
def expectDash : List Char → Option (List Char)
  | c :: rest => if c = '-' then some rest else none
  | [] => none

/-- PrismaAirs.isUUID (node.ts lines 281 to 284): the anchored canonical
8-4-4-4-12 hexadecimal UUID pattern, case-insensitive, matched against
the whole string. -/
def isUUID (value : String) : Bool :=
  (do
    let r1 ← hexRun value.toList 8
    let r2 ← expectDash r1
    let r3 ← hexRun r2 4
    let r4 ← expectDash r3
    let r5 ← hexRun r4 4
    let r6 ← expectDash r5
    let r7 ← hexRun r6 4
    let r8 ← expectDash r7
    let r9 ← hexRun r8 12
    if r9 = [] then some () else none).isSome

/-- PrismaAirs.createProfileObject (node.ts lines 286 to 291): UUID-shaped
values go to profile_id, everything else to profile_name. -/
def createProfileObject (profileValue : String) : AiProfile :=
  if isUUID profileValue then { profile_name := none, profile_id := some profileValue }
  else { profile_name := some profileValue, profile_id := none }

/-- Resolution of the profile string (node.ts lines 630 to 631):
`aiProfileOverride || credentials.aiProfileName`. -/
def resolveProfile (aiProfileOverride credentialProfileName : String) : String :=
  strOr aiProfileOverride credentialProfileName

/-- Resolution of the effective retry budget (node.ts lines 628 to 629):
`rawMaxRetries = (options.maxRetries) || 3` then `min (rawMaxRetries, 6)`. -/
def resolveMaxRetries (configured : Option Int) : Int :=
  min (jsOrInt configured 3) 6

/-- The httpCode carried by a thrown error object: in JS it may be a
number, a string, or absent. -/
inductive JsCode where
  | num (n : Nat)
  | str (s : String)
  deriving Repr, DecidableEq

/-- The classification-relevant shape of a caught error: whether it is a
NodeApiError instance, and its httpCode field when present. -/
structure ErrInfo where
  isNodeApiError : Bool
  httpCode : Option JsCode
  deriving Repr, DecidableEq

/-- The regex test on `String (code || "")` used for string-typed codes in
executeWithRetry (node.ts line 256): exactly a 4 followed by two digits. -/
def is4xxStr (s : String) : Bool :=
  match s.toList with
  | ['4', d1, d2] => d1.isDigit && d2.isDigit
  | _ => false

/-- The non-retriable test of executeWithRetry (node.ts lines 253 to 259):
only a NodeApiError whose classified code lies in the 4xx range stops the
retry loop. -/
def is4xx (e : ErrInfo) : Bool :=
  e.isNodeApiError &&
    (match e.httpCode with
     | some (.num n) => (400 ≤ n) && (n < 500)
     | some (.str s) => is4xxStr s
     | none => false)

/-- The not-found test of the async poll loop (node.ts lines 131 to 132):
numeric code 404, or string code equal to the three characters 404. -/
def is404 (e : ErrInfo) : Bool :=
  match e.httpCode with
  | some (.num n) => n == 404
  | some (.str s) => s == "404"
  | none => false

/-- Backoff before the next attempt (node.ts line 264):
`min (1000 * 2 ^ attempt, 30000)`. -/
def backoffDelay (attempt : Nat) : Nat := min (1000 * 2 ^ attempt) 30000

/-- Outcome of one outbound call in the retry loop: a decoded body, or a
thrown error. -/
inductive CallOutcome (α : Type) where
  | success (body : α)
  | failure (e : ErrInfo)

/-- Observable trace of one run of executeWithRetry: how many outbound
calls were made, the backoff delays slept between attempts, and the final
result (decoded body, or the error finally thrown). -/
structure RetryTrace (α : Type) where
  callsMade : Nat
  delays : List Nat
  result : Except ErrInfo α
  deriving Repr

/-- The loop body of executeWithRetry (node.ts lines 246 to 268), indexed
by the current attempt number and the number of attempts still remaining
after it (`remaining = maxRetries - attempt` in the source loop). -/
def runRetry {α : Type} (calls : Nat → CallOutcome α) : Nat → Nat → RetryTrace α
  | attempt, remaining =>
    match calls attempt with
    | .success b => { callsMade := 1, delays := [], result := .ok b }
    | .failure e =>
      if is4xx e then { callsMade := 1, delays := [], result := .error e }
      else
        match remaining with
        | 0 => { callsMade := 1, delays := [], result := .error e }
        | r + 1 =>
          let rest := runRetry calls (attempt + 1) r
          { callsMade := rest.callsMade + 1,
            delays := backoffDelay attempt :: rest.delays,
            result := rest.result }

/-- PrismaAirsScanner.executeWithRetry (node.ts lines 239 to 271) over an
abstract sequence of call outcomes. -/
def executeWithRetry {α : Type} (calls : Nat → CallOutcome α) (maxRetries : Nat) :
    RetryTrace α :=
  runRetry calls 0 maxRetries

/-- The decoded body of one poll of the results endpoint: the fields the
poll loop inspects (node.ts lines 122 to 125). -/
structure PollResult where
  status : Option String
  action : Option String
  error : Option String
  deriving Repr, DecidableEq

/-- Outcome of one poll call (the executeWithRetry wrapper around it
already resolved): a decoded body or a thrown error. -/
inductive PollOutcome where
  | ok (r : PollResult)
  | err (e : ErrInfo)
  deriving Repr, DecidableEq

/-- JS truthiness of the action field in `(result as any).action`. -/
def hasAction (r : PollResult) : Bool :=
  match r.action with
  | some s => s != ""
  | none => false

/-- The completion test of the poll loop (node.ts line 122):
status completed, or a truthy action field already present. -/
def isCompleted (r : PollResult) : Bool :=
  (r.status == some ("completed")) || hasAction r

/-- The message of the error thrown for a failed async scan (node.ts
line 125): `Async scan failed: ` followed by the remote error field when
truthy, else `Unknown error`. -/
def failedMessage (r : PollResult) : String :=
  "Async scan failed: " ++
    (match r.error with
     | some s => if s = "" then "Unknown error" else s
     | none => "Unknown error")

/-- Terminal outcome of the poll loop. -/
inductive PollFinal where
  | verdict (r : PollResult)
  | failed (msg : String)
  | raised (e : ErrInfo)
  | timedOut
  | fuelExhausted
  deriving Repr, DecidableEq

/-- Observable trace of the poll loop: its terminal outcome and how many
calls to the results endpoint were made. -/
structure PollTrace where
  final : PollFinal
  resultCalls : Nat
  deriving Repr, DecidableEq

/-- The while loop of executeAsyncScan (node.ts lines 118 to 142). Time is
advanced only by the sleeps between polls: `elapsed` is the wall-clock
time since submission and each non-terminal iteration sleeps
pollingInterval before the next poll. The structural fuel argument only
bounds the recursion and is irrelevant on any run that terminates. -/
def pollLoop (polls : Nat → PollOutcome) (pollingInterval maxPollingDuration : Nat) :
    Nat → Nat → Nat → PollTrace
  | 0, _, _ => { final := .fuelExhausted, resultCalls := 0 }
  | fuel + 1, idx, elapsed =>
    if elapsed < maxPollingDuration then
      match polls idx with
      | .ok r =>
        if isCompleted r then { final := .verdict r, resultCalls := 1 }
        else if r.status == some ("failed") then
          { final := .failed (failedMessage r), resultCalls := 1 }
        else
          let rest := pollLoop polls pollingInterval maxPollingDuration fuel
            (idx + 1) (elapsed + pollingInterval)
          { final := rest.final, resultCalls := rest.resultCalls + 1 }
      | .err e =>
        if is404 e then
          let rest := pollLoop polls pollingInterval maxPollingDuration fuel
            (idx + 1) (elapsed + pollingInterval)
          { final := rest.final, resultCalls := rest.resultCalls + 1 }
        else { final := .raised e, resultCalls := 1 }
    else { final := .timedOut, resultCalls := 0 }

/-- The poll phase of PrismaAirsScanner.executeAsyncScan, started at poll
index 0 and elapsed time 0. -/
def executeAsyncPoll (polls : Nat → PollOutcome)
    (pollingInterval maxPollingDuration fuel : Nat) : PollTrace :=
  pollLoop polls pollingInterval maxPollingDuration fuel 0 0

/-- The grouping of executeBatchScan (node.ts lines 157 to 160): the loop
`for (i = 0; i < n; i += 5)` with `slice (i, i + 5)` taken group by
group. -/
def chunksOf5 {α : Type} : List α → List (List α)
  | [] => []
  | x :: xs => ((x :: xs).take 5) :: chunksOf5 ((x :: xs).drop 5)
termination_by l => l.length
decreasing_by
  simp only [List.length_drop, List.length_cons]
  omega

/-- The per-item invoker selection of executeBatchScan (node.ts lines 162
to 174): the sync invoker when the scan mode of the whole batch is sync,
the async invoker otherwise. -/
def batchRunner {β : Type} (scanMode : String) (syncScan asyncScan : ScanRequest → β) :
    ScanRequest → β :=
  fun scanRequest => if scanMode = "sync" then syncScan scanRequest else asyncScan scanRequest

/-- PrismaAirsScanner.executeBatchScan (node.ts lines 145 to 182): the
requests are grouped in fives, each group is mapped through the invoker
(Promise.all over the group), and the group results are concatenated in
order. -/
def executeBatchScan {β : Type} (runOne : ScanRequest → β) (scanRequests : List ScanRequest) :
    List β :=
  ((chunksOf5 scanRequests).map (fun batch => batch.map runOne)).flatten

/-- One entry of the batchItems collection (node.ts lines 670 to 679). -/
structure BatchItem where
  itemType : String
  promptContent : String
  responseContent : String
  deriving Repr, DecidableEq

/-- The content object built for one batch item (node.ts lines 672 to
679): prompt is set for item types prompt and both, response for response
and both. -/
def batchItemContent (item : BatchItem) : ScanContent :=
  { prompt :=
      if (item.itemType == "prompt") || (item.itemType == "both") then some item.promptContent
      else none,
    response :=
      if (item.itemType == "response") || (item.itemType == "both") then some item.responseContent
      else none,
    context := none }

/-- The per-run configuration values the batch request builder reads
(node.ts lines 623 to 631). -/
structure BatchConfig where
  transactionId : String
  profileToUse : String
  userId : String
  aiModel : String
  applicationName : String
  scanMode : String
  deriving Repr, DecidableEq

/-- The itemsArray.map of the batchScan case (node.ts lines 670 to 695),
with the running item index made explicit: each item is validated for
size and mapped to a ScanRequest whose tr_id is the base transaction id
suffixed with -batch- and the item index. -/
def buildBatchRequests (cfg : BatchConfig) : Nat → List BatchItem → Except String (List ScanRequest)
  | _, [] => .ok []
  | index, item :: rest =>
    let itemContent := batchItemContent item
    let contentSize := orEmpty itemContent.prompt ++ orEmpty itemContent.response
    match validateContentSize contentSize cfg.scanMode with
    | .error msg => .error msg
    | .ok _ =>
      match buildBatchRequests cfg (index + 1) rest with
      | .error msg => .error msg
      | .ok reqs =>
        .ok (({ tr_id := cfg.transactionId ++ "-batch-" ++ toString index,
                ai_profile := createProfileObject cfg.profileToUse,
                metadata :=
                  { app_user := cfg.userId,
                    ai_model := cfg.aiModel,
                    application_name := cfg.applicationName },
                contents := [itemContent] } : ScanRequest) :: reqs)


/-- One output record pushed for a batch result (node.ts lines 711 to
723): the batch index and the derived transaction id are attached to the
result at the same position. -/
structure BatchOutput (β : Type) where
  batchIndex : Nat
  transactionId : String
  result : β
  deriving Repr, DecidableEq

/-- The batchResults.forEach of the batchScan case (node.ts lines 711 to
723), with the running result index made explicit. -/
def buildBatchOutputs {β : Type} (transactionId : String) : Nat → List β → List (BatchOutput β)
  | _, [] => []
  | index, r :: rest =>
    { batchIndex := index,
      transactionId := transactionId ++ "-batch-" ++ toString index,
      result := r } :: buildBatchOutputs transactionId (index + 1) rest

/-- The fields of the decoded scan verdict inspected by the masking
orchestrator (node.ts lines 217 to 232): the two optional masked-data
fields and the three places a DLP flag may sit. -/
structure MaskScanResult where
  prompt_masked_data : Option String
  response_masked_data : Option String
  prompt_detected_dlp : Option Bool
  response_detected_dlp : Option Bool
  dlp : Option Bool
  deriving Repr, DecidableEq

/-- JS truthiness of an optional string field (`response.x && response.x
!== null`): present and non-empty. -/
def strTruthy (o : Option String) : Bool :=
  match o with
  | some s => s != ""
  | none => false

/-- The record returned by executeMaskingScan (node.ts line 193). -/
structure MaskingOutcome where
  scanResult : MaskScanResult
  maskedContent : String
  maskApplied : Bool
  dlpDetected : Bool
  deriving Repr, DecidableEq

/-- The original content read from the request (node.ts line 211):
`contents[0].prompt || contents[0].response || empty`. -/
def originalContentOf (scanRequest : ScanRequest) : String :=
  match scanRequest.contents.head? with
  | some c => strOr (orEmpty c.prompt) (orEmpty c.response)
  | none => ""

/-- The derivation phase of PrismaAirsScanner.executeMaskingScan (node.ts
lines 210 to 236), applied to the verdict the underlying scan returned:
DLP detection is read from the three flag sites, the masked content is
the prompt-side masked field when truthy, else the response-side masked
field when truthy, else the original input, and maskApplied records
whether a masked field was used. It never throws. -/
def executeMaskingScan (scanRequest : ScanRequest) (scanResult : MaskScanResult) :
    MaskingOutcome :=
  let originalContent := originalContentOf scanRequest
  let dlpDetected :=
    (scanResult.prompt_detected_dlp == some true) ||
    (scanResult.response_detected_dlp == some true) ||
    (scanResult.dlp == some true)
  if strTruthy scanResult.prompt_masked_data then
    { scanResult := scanResult,
      maskedContent := orEmpty scanResult.prompt_masked_data,
      maskApplied := true,
      dlpDetected := dlpDetected }
  else if strTruthy scanResult.response_masked_data then
    { scanResult := scanResult,
      maskedContent := orEmpty scanResult.response_masked_data,
      maskApplied := true,
      dlpDetected := dlpDetected }
  else
    { scanResult := scanResult,
      maskedContent := originalContent,
      maskApplied := false,
      dlpDetected := dlpDetected }

/-! Helper lemmas shared by the claim theorems. -/

theorem validateContentSize_ok_iff (content scanMode : String) :
    validateContentSize content scanMode = .ok () ↔
      content.utf8ByteSize ≤ maxSizeFor scanMode := by
  constructor
  · intro hok
    by_contra hgt
    push_neg at hgt
    unfold validateContentSize at hok
    simp [hgt] at hok
  · intro hle
    have hno : ¬(content.utf8ByteSize > maxSizeFor scanMode) := by omega
    unfold validateContentSize
    simp [hno]

theorem runRetry_callsMade_le {α : Type} (calls : Nat → CallOutcome α) :
    ∀ remaining attempt, (runRetry calls attempt remaining).callsMade ≤ remaining + 1 := by
  intro remaining
  induction remaining with
  | zero =>
    intro attempt
    unfold runRetry
    cases calls attempt with
    | success b => simp
    | failure e => by_cases h4 : is4xx e <;> simp [h4]
  | succ r ih =>
    intro attempt
    unfold runRetry
    cases calls attempt with
    | success b => simp
    | failure e =>
      by_cases h4 : is4xx e
      · simp [h4]
      · simp only [h4, Bool.false_eq_true, if_false]
        have := ih (attempt + 1)
        show (runRetry calls (attempt + 1) r).callsMade + 1 ≤ r + 1 + 1
        omega

/-- C1 names the base-URL resolution bug: the node resolves only us and
eu, while the credential type it ships with declares in and custom as
selectable regions (and its own test request resolves them); getBaseURL
throws the unknown-region error for both, so the additional locale and
the custom escape hatch of the claim are unreachable in the node. -/
theorem c1_base_url_region_gap :
    getBaseURL ("us") = .ok ("https://service.api.aisecurity.paloaltonetworks.com") ∧
    getBaseURL ("eu") = .ok ("https://service-de.api.aisecurity.paloaltonetworks.com") ∧
    "in" ∈ credentialRegionOptions ∧
    "custom" ∈ credentialRegionOptions ∧
    credentialTestBaseURL ("in") ("https://example.test") =
      "https://service-in.api.aisecurity.paloaltonetworks.com" ∧
    credentialTestBaseURL ("custom") ("https://example.test") = "https://example.test" ∧
    getBaseURL ("in") = .error ("Unknown region \"in\". Expected \"us\" or \"eu\".") ∧
    getBaseURL ("custom") = .error ("Unknown region \"custom\". Expected \"us\" or \"eu\".") := by
  refine ⟨rfl, rfl, ?_, ?_, rfl, rfl, rfl, rfl⟩ <;> simp [credentialRegionOptions]

/-- C2: for both scan modes, size validation passes exactly when the
UTF-8 byte size is within the mode ceiling (2 MiB for sync, 5 MiB for
async); oversize content fails locally with a message naming the rounded
measured size, the mode, and the rounded limit, and no scan content is
built for the item, so no request exists to be sent. -/
theorem c2_content_size_validation (content scanMode : String)
    (hmode : scanMode = "sync" ∨ scanMode = "async") :
    (validateContentSize content scanMode = .ok () ↔
      content.utf8ByteSize ≤ maxSizeFor scanMode) ∧
    maxSizeFor ("sync") = 2 * 1024 * 1024 ∧
    maxSizeFor ("async") = 5 * 1024 * 1024 ∧
    (maxSizeFor scanMode < content.utf8ByteSize →
      validateContentSize content scanMode =
        .error ("Content size (" ++ toString (jsRoundDiv content.utf8ByteSize (1024 * 1024)) ++
          "MB) exceeds " ++ scanMode ++ " scan limit (" ++
          toString (jsRoundDiv (maxSizeFor scanMode) (1024 * 1024)) ++ "MB)") ∧
      ∀ c, promptScanPrepare content scanMode ≠ .ok c) := by
  refine ⟨validateContentSize_ok_iff content scanMode, rfl, rfl, ?_⟩
  intro hover
  have herr : validateContentSize content scanMode =
      .error ("Content size (" ++ toString (jsRoundDiv content.utf8ByteSize (1024 * 1024)) ++
        "MB) exceeds " ++ scanMode ++ " scan limit (" ++
        toString (jsRoundDiv (maxSizeFor scanMode) (1024 * 1024)) ++ "MB)") := by
    unfold validateContentSize
    simp only [gt_iff_lt, hover, if_true]
  refine ⟨herr, ?_⟩
  intro c
  unfold promptScanPrepare
  rw [herr]
  intro hc
  exact Except.noConfusion hc

theorem c2_content_size_validation_witness :
    ("sync" = "sync" ∨ "sync" = "async") ∧
    ((validateContentSize ("abc") ("sync") = .ok () ↔
      String.utf8ByteSize ("abc") ≤ maxSizeFor ("sync")) ∧
    maxSizeFor ("sync") = 2 * 1024 * 1024 ∧
    maxSizeFor ("async") = 5 * 1024 * 1024 ∧
    (maxSizeFor ("sync") < String.utf8ByteSize ("abc") →
      validateContentSize ("abc") ("sync") =
        .error ("Content size (" ++
          toString (jsRoundDiv (String.utf8ByteSize ("abc")) (1024 * 1024)) ++
          "MB) exceeds " ++ "sync" ++ " scan limit (" ++
          toString (jsRoundDiv (maxSizeFor ("sync")) (1024 * 1024)) ++ "MB)") ∧
      ∀ c, promptScanPrepare ("abc") ("sync") ≠ .ok c)) :=
  ⟨Or.inl rfl, c2_content_size_validation ("abc") ("sync") (Or.inl rfl)⟩

/-- C6: a non-empty per-call override wins over the credential default;
the chosen string lands in profile_id exactly when it matches the
8-4-4-4-12 case-insensitive hexadecimal UUID pattern and in profile_name
otherwise, and exactly one of the two fields is populated. -/
theorem c6_profile_resolution (overrideStr credStr : String) :
    (overrideStr ≠ "" → resolveProfile overrideStr credStr = overrideStr) ∧
    (overrideStr = "" → resolveProfile overrideStr credStr = credStr) ∧
    (∀ chosen : String,
      ((createProfileObject chosen).profile_id = some chosen ↔ isUUID chosen = true) ∧
      ((createProfileObject chosen).profile_name = some chosen ↔ isUUID chosen = false) ∧
      (createProfileObject chosen).profile_id.isSome =
        !(createProfileObject chosen).profile_name.isSome) := by
  refine ⟨?_, ?_, ?_⟩
  · intro h
    unfold resolveProfile strOr
    simp [h]
  · intro h
    unfold resolveProfile strOr
    simp [h]
  · intro chosen
    unfold createProfileObject
    by_cases hu : isUUID chosen <;> simp [hu]

theorem c6_profile_resolution_witness :
    ("prod-profile" ≠ "" ∧
      resolveProfile ("prod-profile") ("cred-profile") = "prod-profile") ∧
    ((createProfileObject ("03b32734-d06d-4bb7-a8df-ac5147630ce8")).profile_id =
        some ("03b32734-d06d-4bb7-a8df-ac5147630ce8") ↔
      isUUID ("03b32734-d06d-4bb7-a8df-ac5147630ce8") = true) :=
  ⟨⟨by decide, (c6_profile_resolution ("prod-profile") ("cred-profile")).1 (by decide)⟩,
    ((c6_profile_resolution ("prod-profile") ("cred-profile")).2.2
      ("03b32734-d06d-4bb7-a8df-ac5147630ce8")).1⟩

/-- C9: the effective retry budget is min of the configured value and 6
when the configured value is truthy, and 3 when it is 0 or absent, so
every wrapped request makes at most 7 outbound attempts. -/
theorem c9_max_retries_resolution :
    (∀ r : Int, r ≠ 0 → resolveMaxRetries (some r) = min r 6) ∧
    resolveMaxRetries none = 3 ∧
    resolveMaxRetries (some 0) = 3 ∧
    (∀ configured : Option Int, resolveMaxRetries configured ≤ 6) ∧
    (∀ (α : Type) (calls : Nat → CallOutcome α) (configured : Option Int),
      (executeWithRetry calls (resolveMaxRetries configured).toNat).callsMade ≤ 7) := by
  refine ⟨?_, rfl, rfl, ?_, ?_⟩
  · intro r hr
    unfold resolveMaxRetries jsOrInt
    simp [hr]
  · intro configured
    unfold resolveMaxRetries
    exact min_le_right _ _
  · intro α calls configured
    have hle : (resolveMaxRetries configured).toNat ≤ 6 := by
      have h6 : resolveMaxRetries configured ≤ (6 : Int) := by
        unfold resolveMaxRetries
        exact min_le_right _ _
      omega
    have := runRetry_callsMade_le calls (resolveMaxRetries configured).toNat 0
    unfold executeWithRetry
    omega

theorem c9_max_retries_resolution_witness :
    ((10 : Int) ≠ 0 ∧ resolveMaxRetries (some 10) = min 10 6) ∧
    resolveMaxRetries none = 3 :=
  ⟨⟨by decide, c9_max_retries_resolution.1 10 (by decide)⟩,
    c9_max_retries_resolution.2.1⟩

/-- C10: when both masked-data fields are truthy the prompt-side field is
the one returned as maskedContent; the response-side field is used only
when the prompt-side field is absent, null, or empty. -/
theorem c10_prompt_masked_precedence (scanRequest : ScanRequest)
    (scanResult : MaskScanResult) :
    (∀ s : String, scanResult.prompt_masked_data = some s → s ≠ "" →
      (executeMaskingScan scanRequest scanResult).maskedContent = s) ∧
    (strTruthy scanResult.prompt_masked_data = false →
      ∀ s : String, scanResult.response_masked_data = some s → s ≠ "" →
        (executeMaskingScan scanRequest scanResult).maskedContent = s) ∧
    (strTruthy scanResult.prompt_masked_data = true →
      strTruthy scanResult.response_masked_data = true →
      (executeMaskingScan scanRequest scanResult).maskedContent =
        orEmpty scanResult.prompt_masked_data) := by
  refine ⟨?_, ?_, ?_⟩
  · intro s hs hne
    have ht : strTruthy scanResult.prompt_masked_data = true := by
      unfold strTruthy
      rw [hs]
      simpa using hne
    unfold executeMaskingScan
    simp only [ht, if_true]
    unfold orEmpty
    rw [hs]
  · intro hpf s hs hne
    have ht : strTruthy scanResult.response_masked_data = true := by
      unfold strTruthy
      rw [hs]
      simpa using hne
    unfold executeMaskingScan
    simp only [hpf, Bool.false_eq_true, if_false, ht, if_true]
    unfold orEmpty
    rw [hs]
  · intro hp _
    unfold executeMaskingScan
    simp only [hp, if_true]

theorem c10_prompt_masked_precedence_witness :
    (⟨some ("PM"), some ("RM"), none, none, some true⟩ : MaskScanResult).prompt_masked_data =
      some ("PM") ∧
    ("PM" : String) ≠ "" ∧
    (executeMaskingScan
      ⟨"t", ⟨none, none⟩, ⟨"", "", ""⟩, [⟨some ("orig"), none, none⟩]⟩
      ⟨some ("PM"), some ("RM"), none, none, some true⟩).maskedContent = "PM" :=
  ⟨rfl, by decide,
    (c10_prompt_masked_precedence
      ⟨"t", ⟨none, none⟩, ⟨"", "", ""⟩, [⟨some ("orig"), none, none⟩]⟩
      ⟨some ("PM"), some ("RM"), none, none, some true⟩).1 ("PM") rfl (by decide)⟩

/-- C8: the masking orchestrator always returns the original verdict with
the three derived fields and never fails on DLP without masking: with the
DLP flag true and a truthy response-side masked field (prompt side not
truthy) it reports maskApplied true, dlpDetected true, and the masked
field as maskedContent; with the DLP flag true and no truthy masked field
it reports maskApplied false, dlpDetected true, and the original input
unchanged. -/
theorem c8_masking_orchestrator (scanRequest : ScanRequest) (scanResult : MaskScanResult)
    (hdlp : scanResult.prompt_detected_dlp = some true ∨
      scanResult.response_detected_dlp = some true ∨ scanResult.dlp = some true) :
    (executeMaskingScan scanRequest scanResult).scanResult = scanResult ∧
    (executeMaskingScan scanRequest scanResult).dlpDetected = true ∧
    (strTruthy scanResult.prompt_masked_data = false →
      ∀ s : String, scanResult.response_masked_data = some s → s ≠ "" →
        (executeMaskingScan scanRequest scanResult).maskApplied = true ∧
        (executeMaskingScan scanRequest scanResult).maskedContent = s) ∧
    (strTruthy scanResult.prompt_masked_data = false →
      strTruthy scanResult.response_masked_data = false →
      (executeMaskingScan scanRequest scanResult).maskApplied = false ∧
      (executeMaskingScan scanRequest scanResult).maskedContent =
        originalContentOf scanRequest) := by
  have hd : ((scanResult.prompt_detected_dlp == some true) ||
      (scanResult.response_detected_dlp == some true) ||
      (scanResult.dlp == some true)) = true := by
    rcases hdlp with h | h | h <;> simp [h]
  refine ⟨?_, ?_, ?_, ?_⟩
  · unfold executeMaskingScan
    by_cases hp : strTruthy scanResult.prompt_masked_data
    · simp [hp]
    · by_cases hr : strTruthy scanResult.response_masked_data <;> simp [hp, hr]
  · unfold executeMaskingScan
    by_cases hp : strTruthy scanResult.prompt_masked_data
    · simp [hp, hd]
    · by_cases hr : strTruthy scanResult.response_masked_data <;> simp [hp, hr, hd]
  · intro hpf s hs hne
    have ht : strTruthy scanResult.response_masked_data = true := by
      unfold strTruthy
      rw [hs]
      simpa using hne
    unfold executeMaskingScan
    simp only [hpf, Bool.false_eq_true, if_false, ht, if_true]
    refine ⟨trivial, ?_⟩
    unfold orEmpty
    rw [hs]
  · intro hpf hrf
    unfold executeMaskingScan
    simp only [hpf, hrf, Bool.false_eq_true, if_false]
    exact ⟨trivial, trivial⟩

theorem c8_masking_orchestrator_witness :
    ((⟨none, some ("MASKED"), none, some true, none⟩ : MaskScanResult).prompt_detected_dlp =
        some true ∨
      (⟨none, some ("MASKED"), none, some true, none⟩ : MaskScanResult).response_detected_dlp =
        some true ∨
      (⟨none, some ("MASKED"), none, some true, none⟩ : MaskScanResult).dlp = some true) ∧
    (executeMaskingScan
        ⟨"t", ⟨none, none⟩, ⟨"", "", ""⟩, [⟨none, some ("orig"), none⟩]⟩
        ⟨none, some ("MASKED"), none, some true, none⟩).dlpDetected = true :=
  ⟨Or.inr (Or.inl rfl),
    (c8_masking_orchestrator
      ⟨"t", ⟨none, none⟩, ⟨"", "", ""⟩, [⟨none, some ("orig"), none⟩]⟩
      ⟨none, some ("MASKED"), none, some true, none⟩
      (Or.inr (Or.inl rfl))).2.1⟩

theorem range_succ_map_delay (attempt n : Nat) :
    (List.range (n + 1)).map (fun k => backoffDelay (attempt + k)) =
      backoffDelay attempt :: (List.range n).map (fun k => backoffDelay (attempt + 1 + k)) := by
  rw [List.range_succ_eq_map, List.map_cons, List.map_map, Nat.add_zero]
  congr 1
  apply List.map_congr_left
  intro k _
  show backoffDelay (attempt + (k + 1)) = backoffDelay (attempt + 1 + k)
  congr 1
  omega

theorem runRetry_success_after_failures {α : Type} (calls : Nat → CallOutcome α) :
    ∀ (N attempt remaining : Nat) (b : α), N ≤ remaining →
      (∀ k, k < N → ∃ e, calls (attempt + k) = .failure e ∧ is4xx e = false) →
      calls (attempt + N) = .success b →
      runRetry calls attempt remaining =
        { callsMade := N + 1,
          delays := (List.range N).map (fun k => backoffDelay (attempt + k)),
          result := .ok b } := by
  intro N
  induction N with
  | zero =>
    intro attempt remaining b _ _ hsucc
    rw [Nat.add_zero] at hsucc
    unfold runRetry
    rw [hsucc]
    simp
  | succ n ih =>
    intro attempt remaining b hle hfails hsucc
    obtain ⟨e0, he0, h40⟩ := hfails 0 (Nat.succ_pos n)
    rw [Nat.add_zero] at he0
    obtain ⟨r, rfl⟩ : ∃ r, remaining = r + 1 := ⟨remaining - 1, by omega⟩
    unfold runRetry
    rw [he0]
    simp only [h40, Bool.false_eq_true, if_false]
    have hrec := ih (attempt + 1) r b (by omega)
      (fun k hk => by
        obtain ⟨e, hee, h4e⟩ := hfails (k + 1) (by omega)
        refine ⟨e, ?_, h4e⟩
        rw [show attempt + 1 + k = attempt + (k + 1) from by omega]
        exact hee)
      (by
        rw [show attempt + 1 + n = attempt + (n + 1) from by omega]
        exact hsucc)
    rw [hrec, range_succ_map_delay]

theorem runRetry_all_retriable_failures {α : Type} (calls : Nat → CallOutcome α) :
    ∀ (remaining attempt : Nat),
      (∀ k, k ≤ remaining → ∃ e, calls (attempt + k) = .failure e ∧ is4xx e = false) →
      ∃ e, calls (attempt + remaining) = .failure e ∧
        runRetry calls attempt remaining =
          { callsMade := remaining + 1,
            delays := (List.range remaining).map (fun k => backoffDelay (attempt + k)),
            result := .error e } := by
  intro remaining
  induction remaining with
  | zero =>
    intro attempt hfails
    obtain ⟨e, he, h4⟩ := hfails 0 (le_refl 0)
    rw [Nat.add_zero] at he
    refine ⟨e, by rw [Nat.add_zero]; exact he, ?_⟩
    unfold runRetry
    rw [he]
    simp [h4]
  | succ r ih =>
    intro attempt hfails
    obtain ⟨e0, he0, h40⟩ := hfails 0 (Nat.zero_le _)
    rw [Nat.add_zero] at he0
    obtain ⟨e, he, hrec⟩ := ih (attempt + 1) (fun k hk => by
      obtain ⟨ek, hek, h4k⟩ := hfails (k + 1) (by omega)
      refine ⟨ek, ?_, h4k⟩
      rw [show attempt + 1 + k = attempt + (k + 1) from by omega]
      exact hek)
    refine ⟨e, ?_, ?_⟩
    · rw [show attempt + (r + 1) = attempt + 1 + r from by omega]
      exact he
    · unfold runRetry
      rw [he0]
      simp only [h40, Bool.false_eq_true, if_false]
      rw [hrec, range_succ_map_delay]

theorem backoffDelay_mono (attempt : Nat) : backoffDelay attempt ≤ backoffDelay (attempt + 1) := by
  unfold backoffDelay
  apply min_le_min _ (le_refl 30000)
  have : (2 : Nat) ^ attempt ≤ 2 ^ (attempt + 1) := Nat.pow_le_pow_right (by omega) (by omega)
  omega

/-- C3: a run of N retriable failures followed by a success, with N within
the retry budget, makes exactly N plus 1 calls and sleeps the backoff
delays for attempts 0 to N minus 1; a first failure classified as 4xx
makes exactly one call and raises it at once; when every attempt up to
the budget fails retriably, the budget plus 1 calls are made and the last
error is propagated; and the backoff delay is min of 1000 times 2 to the
attempt and 30000, non-decreasing in the attempt and capped at 30000. -/
theorem c3_retry_executor :
    (∀ (α : Type) (calls : Nat → CallOutcome α) (maxRetries N : Nat) (b : α),
      N ≤ maxRetries →
      (∀ k, k < N → ∃ e, calls k = .failure e ∧ is4xx e = false) →
      calls N = .success b →
      executeWithRetry calls maxRetries =
        { callsMade := N + 1, delays := (List.range N).map backoffDelay, result := .ok b }) ∧
    (∀ (α : Type) (calls : Nat → CallOutcome α) (maxRetries : Nat) (e : ErrInfo),
      calls 0 = .failure e → is4xx e = true →
      executeWithRetry calls maxRetries =
        { callsMade := 1, delays := [], result := .error e }) ∧
    (∀ (α : Type) (calls : Nat → CallOutcome α) (maxRetries : Nat),
      (∀ k, k ≤ maxRetries → ∃ e, calls k = .failure e ∧ is4xx e = false) →
      ∃ e, calls maxRetries = .failure e ∧
        executeWithRetry calls maxRetries =
          { callsMade := maxRetries + 1,
            delays := (List.range maxRetries).map backoffDelay,
            result := .error e }) ∧
    (∀ attempt : Nat, backoffDelay attempt = min (1000 * 2 ^ attempt) 30000 ∧
      backoffDelay attempt ≤ backoffDelay (attempt + 1) ∧
      backoffDelay attempt ≤ 30000) := by
  refine ⟨?_, ?_, ?_, ?_⟩
  · intro α calls maxRetries N b hle hfails hsucc
    have h := runRetry_success_after_failures calls N 0 maxRetries b hle
      (fun k hk => by rw [Nat.zero_add]; exact hfails k hk)
      (by rw [Nat.zero_add]; exact hsucc)
    unfold executeWithRetry
    rw [h]
    congr 1
    apply List.map_congr_left
    intro k _
    rw [Nat.zero_add]
  · intro α calls maxRetries e he h4
    unfold executeWithRetry runRetry
    rw [he]
    simp [h4]
  · intro α calls maxRetries hfails
    obtain ⟨e, he, hrun⟩ := runRetry_all_retriable_failures calls maxRetries 0
      (fun k hk => by rw [Nat.zero_add]; exact hfails k hk)
    rw [Nat.zero_add] at he
    refine ⟨e, he, ?_⟩
    unfold executeWithRetry
    rw [hrun]
    congr 1
    apply List.map_congr_left
    intro k _
    rw [Nat.zero_add]
  · intro attempt
    exact ⟨rfl, backoffDelay_mono attempt, min_le_right _ _⟩

/-- A concrete call sequence for the retry witness: server errors on the
first two attempts, then a success. -/
def c3WitnessCalls : Nat → CallOutcome Nat :=
  fun k =>
    if k < 2 then .failure { isNodeApiError := false, httpCode := some (.num 500) }
    else .success 7

theorem c3_retry_executor_witness :
    2 ≤ 3 ∧
    executeWithRetry c3WitnessCalls 3 =
      { callsMade := 2 + 1, delays := (List.range 2).map backoffDelay, result := .ok 7 } :=
  ⟨by omega,
    c3_retry_executor.1 Nat c3WitnessCalls 3 2 7 (by omega)
      (fun k hk =>
        ⟨{ isNodeApiError := false, httpCode := some (.num 500) },
          by unfold c3WitnessCalls; rw [if_pos hk], rfl⟩)
      (by unfold c3WitnessCalls; rfl)⟩

theorem pollLoop_step_ok_nonterminal (polls : Nat → PollOutcome)
    (pi mpd fuel idx elapsed : Nat) (r : PollResult)
    (hel : elapsed < mpd) (hp : polls idx = .ok r) (hc : isCompleted r = false)
    (hf : (r.status == some ("failed")) = false) :
    pollLoop polls pi mpd (fuel + 1) idx elapsed =
      { final := (pollLoop polls pi mpd fuel (idx + 1) (elapsed + pi)).final,
        resultCalls := (pollLoop polls pi mpd fuel (idx + 1) (elapsed + pi)).resultCalls + 1 } := by
  conv_lhs => rw [pollLoop]
  simp only [if_pos hel, hp, hc, hf, Bool.false_eq_true, if_false]

theorem pollLoop_step_404 (polls : Nat → PollOutcome)
    (pi mpd fuel idx elapsed : Nat) (e : ErrInfo)
    (hel : elapsed < mpd) (hp : polls idx = .err e) (h4 : is404 e = true) :
    pollLoop polls pi mpd (fuel + 1) idx elapsed =
      { final := (pollLoop polls pi mpd fuel (idx + 1) (elapsed + pi)).final,
        resultCalls := (pollLoop polls pi mpd fuel (idx + 1) (elapsed + pi)).resultCalls + 1 } := by
  conv_lhs => rw [pollLoop]
  simp only [if_pos hel, hp, h4, if_true]

theorem pollLoop_all_404_timeout (polls : Nat → PollOutcome) (pi mpd : Nat)
    (hpi : 0 < pi) (h404 : ∀ k, ∃ e, polls k = .err e ∧ is404 e = true) :
    ∀ (fuel idx elapsed : Nat), 0 < fuel → mpd < elapsed + fuel →
      (pollLoop polls pi mpd fuel idx elapsed).final = .timedOut := by
  intro fuel
  induction fuel with
  | zero =>
    intro idx elapsed h0 _
    omega
  | succ f ih =>
    intro idx elapsed _ hbound
    by_cases helapsed : elapsed < mpd
    · obtain ⟨e, he, h4⟩ := h404 idx
      rw [pollLoop_step_404 polls pi mpd f idx elapsed e helapsed he h4]
      exact ih (idx + 1) (elapsed + pi) (by omega) (by omega)
    · unfold pollLoop
      simp only [if_neg helapsed]

theorem pollLoop_verdict_resultCalls_pos (polls : Nat → PollOutcome) (pi mpd : Nat)
    (fuel idx elapsed : Nat) (r : PollResult)
    (h : (pollLoop polls pi mpd fuel idx elapsed).final = .verdict r) :
    1 ≤ (pollLoop polls pi mpd fuel idx elapsed).resultCalls := by
  cases fuel with
  | zero => exact absurd h (by simp [pollLoop])
  | succ f =>
    by_cases helapsed : elapsed < mpd
    · unfold pollLoop
      simp only [if_pos helapsed]
      cases hp : polls idx with
      | ok pr =>
        by_cases hc : isCompleted pr = true
        · simp [hc]
        · by_cases hfp : (pr.status == some ("failed")) = true
          · simp [hc, hfp]
          · simp [hc, hfp]
      | err e =>
        by_cases h4 : is404 e = true
        · simp [h4]
        · simp [h4]
    · unfold pollLoop at h
      simp only [if_neg helapsed] at h
      exact absurd h (by simp)

/-- C4: within the deadline, a poll that returns a non-terminal status or
fails with a 404 condition leads to a sleep of pollingInterval and
another poll; when every poll fails with 404 the loop times out once
maxPollingDuration has elapsed and never yields a verdict; and a run of
two processing polls followed by a completed poll returns the completed
verdict after exactly 3 result calls. -/
theorem c4_async_polling :
    (∀ (polls : Nat → PollOutcome) (pi mpd fuel idx elapsed : Nat) (r : PollResult),
      elapsed < mpd → polls idx = .ok r → isCompleted r = false →
      (r.status == some ("failed")) = false →
      pollLoop polls pi mpd (fuel + 1) idx elapsed =
        { final := (pollLoop polls pi mpd fuel (idx + 1) (elapsed + pi)).final,
          resultCalls := (pollLoop polls pi mpd fuel (idx + 1) (elapsed + pi)).resultCalls + 1 }) ∧
    (∀ (polls : Nat → PollOutcome) (pi mpd fuel idx elapsed : Nat) (e : ErrInfo),
      elapsed < mpd → polls idx = .err e → is404 e = true →
      pollLoop polls pi mpd (fuel + 1) idx elapsed =
        { final := (pollLoop polls pi mpd fuel (idx + 1) (elapsed + pi)).final,
          resultCalls := (pollLoop polls pi mpd fuel (idx + 1) (elapsed + pi)).resultCalls + 1 }) ∧
    (∀ (polls : Nat → PollOutcome) (pi mpd fuel : Nat),
      0 < pi → mpd < fuel →
      (∀ k, ∃ e, polls k = .err e ∧ is404 e = true) →
      (executeAsyncPoll polls pi mpd fuel).final = .timedOut ∧
      ∀ r : PollResult, (executeAsyncPoll polls pi mpd fuel).final ≠ .verdict r) ∧
    (∀ (polls : Nat → PollOutcome) (pi mpd f : Nat) (r0 r1 r2 : PollResult),
      polls 0 = .ok r0 → r0.status = some ("processing") → hasAction r0 = false →
      polls 1 = .ok r1 → r1.status = some ("processing") → hasAction r1 = false →
      polls 2 = .ok r2 → isCompleted r2 = true →
      pi + pi < mpd →
      executeAsyncPoll polls pi mpd (f + 3) =
        { final := .verdict r2, resultCalls := 3 }) := by
  refine ⟨pollLoop_step_ok_nonterminal, pollLoop_step_404, ?_, ?_⟩
  · intro polls pi mpd fuel hpi hfuel h404
    have ht : (executeAsyncPoll polls pi mpd fuel).final = .timedOut :=
      pollLoop_all_404_timeout polls pi mpd hpi h404 fuel 0 0 (by omega) (by omega)
    refine ⟨ht, ?_⟩
    intro r
    rw [ht]
    simp
  · intro polls pi mpd f r0 r1 r2 hp0 hs0 ha0 hp1 hs1 ha1 hp2 hc2 hlt
    have hc0 : isCompleted r0 = false := by
      unfold isCompleted
      rw [hs0, ha0]
      rfl
    have hf0 : (r0.status == some ("failed")) = false := by
      rw [hs0]
      rfl
    have hc1 : isCompleted r1 = false := by
      unfold isCompleted
      rw [hs1, ha1]
      rfl
    have hf1 : (r1.status == some ("failed")) = false := by
      rw [hs1]
      rfl
    have s1 := pollLoop_step_ok_nonterminal polls pi mpd (f + 2) 0 0 r0
      (by omega) hp0 hc0 hf0
    have s2 := pollLoop_step_ok_nonterminal polls pi mpd (f + 1) 1 (0 + pi) r1
      (by omega) hp1 hc1 hf1
    have s3 : pollLoop polls pi mpd (f + 1) 2 (0 + pi + pi) =
        { final := .verdict r2, resultCalls := 1 } := by
      unfold pollLoop
      have hlt3 : 0 + pi + pi < mpd := by omega
      simp only [if_pos hlt3, hp2, hc2, if_true]
    unfold executeAsyncPoll
    have hfe : f + 3 = (f + 2) + 1 := by omega
    rw [hfe, s1]
    have hfe2 : f + 2 = (f + 1) + 1 := by omega
    rw [hfe2, s2, s3]

/-- A concrete non-terminal poll body for the polling witnesses. -/
def procResult : PollResult := { status := some ("processing"), action := none, error := none }

/-- A concrete completed poll body for the polling witnesses. -/
def compResult : PollResult := { status := some ("completed"), action := none, error := none }

/-- A concrete poll sequence: processing on the first two polls, then
completed. -/
def c4WitnessPolls : Nat → PollOutcome :=
  fun k => if k < 2 then .ok procResult else .ok compResult

theorem c4_async_polling_witness :
    c4WitnessPolls 0 = .ok procResult ∧
    procResult.status = some ("processing") ∧
    hasAction procResult = false ∧
    c4WitnessPolls 1 = .ok procResult ∧
    c4WitnessPolls 2 = .ok compResult ∧
    isCompleted compResult = true ∧
    2000 + 2000 < 300000 ∧
    executeAsyncPoll c4WitnessPolls 2000 300000 3 =
      { final := .verdict compResult, resultCalls := 3 } :=
  ⟨rfl, rfl, rfl, rfl, rfl, rfl, by omega,
    c4_async_polling.2.2.2 c4WitnessPolls 2000 300000 0 procResult procResult compResult
      rfl rfl rfl rfl rfl rfl rfl rfl (by omega)⟩

/-- C5: within the deadline, a decoded poll body is returned as the
terminal verdict of that poll exactly when its status is completed or it
already carries a truthy action field; a non-terminal body with status
failed terminates at once with the descriptive failure message, which
embeds the remote error field when present and non-empty; and a poll
error that is not a 404 propagates immediately. -/
theorem c5_poll_terminal_classification :
    (∀ (polls : Nat → PollOutcome) (pi mpd fuel idx elapsed : Nat) (r : PollResult),
      elapsed < mpd → polls idx = .ok r →
      (pollLoop polls pi mpd (fuel + 1) idx elapsed =
          { final := .verdict r, resultCalls := 1 } ↔
        (r.status = some ("completed") ∨ hasAction r = true))) ∧
    (∀ (polls : Nat → PollOutcome) (pi mpd fuel idx elapsed : Nat) (r : PollResult),
      elapsed < mpd → polls idx = .ok r → isCompleted r = false →
      r.status = some ("failed") →
      pollLoop polls pi mpd (fuel + 1) idx elapsed =
        { final := .failed (failedMessage r), resultCalls := 1 }) ∧
    (∀ (polls : Nat → PollOutcome) (pi mpd fuel idx elapsed : Nat) (e : ErrInfo),
      elapsed < mpd → polls idx = .err e → is404 e = false →
      pollLoop polls pi mpd (fuel + 1) idx elapsed =
        { final := .raised e, resultCalls := 1 }) ∧
    (∀ r : PollResult,
      (∀ s : String, r.error = some s → s ≠ "" →
        failedMessage r = "Async scan failed: " ++ s) ∧
      (r.error = none → failedMessage r = "Async scan failed: Unknown error")) := by
  refine ⟨?_, ?_, ?_, ?_⟩
  · intro polls pi mpd fuel idx elapsed r hel hp
    constructor
    · intro htr
      by_contra hno
      push_neg at hno
      obtain ⟨hnc, hna⟩ := hno
      have hnab : hasAction r = false := by
        revert hna
        cases hasAction r <;> simp
      have hcf : isCompleted r = false := by
        unfold isCompleted
        rw [hnab, Bool.or_false, beq_eq_false_iff_ne]
        exact hnc
      rw [pollLoop] at htr
      simp only [if_pos hel, hp, hcf, Bool.false_eq_true, if_false] at htr
      by_cases hsf : (r.status == some ("failed")) = true
      · simp only [hsf, if_true, PollTrace.mk.injEq] at htr
        exact PollFinal.noConfusion htr.1
      · simp only [hsf, Bool.false_eq_true, if_false, PollTrace.mk.injEq] at htr
        obtain ⟨hfin, hcnt⟩ := htr
        have hpos := pollLoop_verdict_resultCalls_pos polls pi mpd fuel (idx + 1)
          (elapsed + pi) r hfin
        omega
    · intro hor
      have hc : isCompleted r = true := by
        unfold isCompleted
        rcases hor with h | h
        · rw [h]
          rfl
        · rw [h, Bool.or_true]
      rw [pollLoop]
      simp only [if_pos hel, hp, hc, if_true]
  · intro polls pi mpd fuel idx elapsed r hel hp hnc hsf
    have hsfb : (r.status == some ("failed")) = true := by
      rw [hsf]
      rfl
    rw [pollLoop]
    simp only [if_pos hel, hp, hnc, Bool.false_eq_true, if_false, hsfb, if_true]
  · intro polls pi mpd fuel idx elapsed e hel hp h4
    rw [pollLoop]
    simp only [if_pos hel, hp, h4, Bool.false_eq_true, if_false]
  · intro r
    constructor
    · intro s hs hne
      unfold failedMessage
      rw [hs]
      simp [hne]
    · intro hnone
      unfold failedMessage
      rw [hnone]
      rfl

theorem c5_poll_terminal_classification_witness :
    (0 : Nat) < 300000 ∧
    c4WitnessPolls 2 = .ok compResult ∧
    (pollLoop c4WitnessPolls 2000 300000 1 2 0 =
        { final := .verdict compResult, resultCalls := 1 } ↔
      (compResult.status = some ("completed") ∨ hasAction compResult = true)) :=
  ⟨by omega, rfl,
    c5_poll_terminal_classification.1 c4WitnessPolls 2000 300000 0 2 0 compResult
      (by omega) rfl⟩

theorem chunksOf5_length_le {α : Type} (xs : List α) :
    ∀ g ∈ chunksOf5 xs, g.length ≤ 5 := by
  induction xs using chunksOf5.induct with
  | case1 =>
    intro g hg
    simp [chunksOf5] at hg
  | case2 x rest ih =>
    intro g hg
    rw [chunksOf5] at hg
    rcases List.mem_cons.mp hg with h | h
    · subst h
      rw [List.length_take]
      exact min_le_left _ _
    · exact ih g h

theorem chunksOf5_flatten {α : Type} (xs : List α) : (chunksOf5 xs).flatten = xs := by
  induction xs using chunksOf5.induct with
  | case1 => simp [chunksOf5]
  | case2 x rest ih =>
    rw [chunksOf5, List.flatten_cons, ih, List.take_append_drop]

theorem executeBatchScan_eq_map {β : Type} (runOne : ScanRequest → β) (xs : List ScanRequest) :
    executeBatchScan runOne xs = xs.map runOne := by
  unfold executeBatchScan
  induction xs using chunksOf5.induct with
  | case1 => simp [chunksOf5]
  | case2 x rest ih =>
    rw [chunksOf5, List.map_cons, List.flatten_cons, ih, ← List.map_append,
      List.take_append_drop]

theorem buildBatchRequests_spec (cfg : BatchConfig) :
    ∀ (items : List BatchItem) (start : Nat) (reqs : List ScanRequest),
      buildBatchRequests cfg start items = .ok reqs →
      reqs.length = items.length ∧
      ∀ i (h : i < reqs.length),
        (reqs.get ⟨i, h⟩).tr_id =
          cfg.transactionId ++ "-batch-" ++ toString (start + i) := by
  intro items
  induction items with
  | nil =>
    intro start reqs hok
    unfold buildBatchRequests at hok
    cases hok
    exact ⟨rfl, fun i h => absurd h (by simp)⟩
  | cons item rest ih =>
    intro start reqs hok
    unfold buildBatchRequests at hok
    simp only [] at hok
    cases hval : validateContentSize
        (orEmpty (batchItemContent item).prompt ++ orEmpty (batchItemContent item).response)
        cfg.scanMode with
    | error m =>
      rw [hval] at hok
      exact absurd hok (by simp)
    | ok u =>
      rw [hval] at hok
      cases hrec : buildBatchRequests cfg (start + 1) rest with
      | error m =>
        rw [hrec] at hok
        exact absurd hok (by simp)
      | ok rs =>
        rw [hrec] at hok
        simp only [Except.ok.injEq] at hok
        subst hok
        obtain ⟨hlen, hget⟩ := ih (start + 1) rs hrec
        refine ⟨by simp [hlen], ?_⟩
        intro i h
        cases i with
        | zero =>
          show cfg.transactionId ++ "-batch-" ++ toString start =
            cfg.transactionId ++ "-batch-" ++ toString (start + 0)
          rw [Nat.add_zero]
        | succ j =>
          have hj : j < rs.length := by
            simp only [List.length_cons] at h
            omega
          have := hget j hj
          show (rs.get ⟨j, hj⟩).tr_id = cfg.transactionId ++ "-batch-" ++ toString (start + (j + 1))
          rw [this]
          congr 2
          omega

theorem buildBatchOutputs_spec {β : Type} (tid : String) :
    ∀ (results : List β) (start : Nat),
      (buildBatchOutputs tid start results).length = results.length ∧
      ∀ i (h : i < (buildBatchOutputs tid start results).length) (hr : i < results.length),
        (buildBatchOutputs tid start results).get ⟨i, h⟩ =
          { batchIndex := start + i,
            transactionId := tid ++ "-batch-" ++ toString (start + i),
            result := results.get ⟨i, hr⟩ } := by
  intro results
  induction results with
  | nil =>
    intro start
    exact ⟨rfl, fun i h hr => absurd hr (by simp)⟩
  | cons r rest ih =>
    intro start
    refine ⟨?_, ?_⟩
    · show (buildBatchOutputs tid (start + 1) rest).length + 1 = rest.length + 1
      rw [(ih (start + 1)).1]
    · intro i h hr
      cases i with
      | zero =>
        show ({ batchIndex := start, transactionId := tid ++ "-batch-" ++ toString start,
                result := r } : BatchOutput β) =
          { batchIndex := start + 0, transactionId := tid ++ "-batch-" ++ toString (start + 0),
            result := r }
        rw [Nat.add_zero]
      | succ j =>
        have hb : j < (buildBatchOutputs tid (start + 1) rest).length := by
          have := (ih (start + 1)).1
          simp only [buildBatchOutputs, List.length_cons] at h
          omega
        have hjr : j < rest.length := by
          simp only [List.length_cons] at hr
          omega
        have := (ih (start + 1)).2 j hb hjr
        show (buildBatchOutputs tid (start + 1) rest).get ⟨j, hb⟩ =
          { batchIndex := start + (j + 1),
            transactionId := tid ++ "-batch-" ++ toString (start + (j + 1)),
            result := rest.get ⟨j, hjr⟩ }
        rw [this]
        have harith : start + 1 + j = start + (j + 1) := by omega
        rw [harith]

/-- C7: the batch coordinator partitions the requests into consecutive
groups of at most 5, issues each group through the single per-batch
invoker and concatenates group results, so the output is the input
sequence mapped in order; batch item i is sent with the base transaction
id suffixed -batch- and i, and output record i carries batchIndex i and
the same derived transaction id. -/
theorem c7_batch_coordinator :
    (∀ (xs : List ScanRequest) (g : List ScanRequest), g ∈ chunksOf5 xs → g.length ≤ 5) ∧
    (∀ xs : List ScanRequest, (chunksOf5 xs).flatten = xs) ∧
    (∀ (β : Type) (scanMode : String) (syncScan asyncScan : ScanRequest → β)
        (xs : List ScanRequest),
      executeBatchScan (batchRunner scanMode syncScan asyncScan) xs =
        xs.map (batchRunner scanMode syncScan asyncScan)) ∧
    (∀ (cfg : BatchConfig) (items : List BatchItem) (reqs : List ScanRequest),
      buildBatchRequests cfg 0 items = .ok reqs →
      reqs.length = items.length ∧
      ∀ i (h : i < reqs.length),
        (reqs.get ⟨i, h⟩).tr_id = cfg.transactionId ++ "-batch-" ++ toString i) ∧
    (∀ (β : Type) (tid : String) (results : List β) (i : Nat)
        (h : i < (buildBatchOutputs tid 0 results).length) (hr : i < results.length),
      (buildBatchOutputs tid 0 results).get ⟨i, h⟩ =
        { batchIndex := i, transactionId := tid ++ "-batch-" ++ toString i,
          result := results.get ⟨i, hr⟩ }) := by
  refine ⟨chunksOf5_length_le, chunksOf5_flatten, ?_, ?_, ?_⟩
  · intro β scanMode syncScan asyncScan xs
    exact executeBatchScan_eq_map (batchRunner scanMode syncScan asyncScan) xs
  · intro cfg items reqs hok
    obtain ⟨hlen, hget⟩ := buildBatchRequests_spec cfg items 0 reqs hok
    refine ⟨hlen, ?_⟩
    intro i h
    have := hget i h
    rw [this, Nat.zero_add]
  · intro β tid results i h hr
    have := (buildBatchOutputs_spec tid results 0).2 i h hr
    rw [this]
    congr 1 <;> rw [Nat.zero_add]

/-- A concrete batch configuration for the batch witness. -/
def c7cfg : BatchConfig :=
  { transactionId := "t", profileToUse := "p", userId := "u",
    aiModel := "m", applicationName := "a", scanMode := "sync" }

/-- Two concrete batch items for the batch witness. -/
def c7items : List BatchItem :=
  [{ itemType := "prompt", promptContent := "hi", responseContent := "" },
   { itemType := "response", promptContent := "", responseContent := "yo" }]

theorem c7_batch_coordinator_witness :
    (∃ reqs : List ScanRequest,
      buildBatchRequests c7cfg 0 c7items = .ok reqs ∧
      reqs.length = c7items.length ∧
      ∀ i (h : i < reqs.length),
        (reqs.get ⟨i, h⟩).tr_id = c7cfg.transactionId ++ "-batch-" ++ toString i) :=
  ⟨[{ tr_id := "t-batch-0", ai_profile := { profile_name := some ("p"), profile_id := none },
      metadata := { app_user := "u", ai_model := "m", application_name := "a" },
      contents := [{ prompt := some ("hi"), response := none, context := none }] },
    { tr_id := "t-batch-1", ai_profile := { profile_name := some ("p"), profile_id := none },
      metadata := { app_user := "u", ai_model := "m", application_name := "a" },
      contents := [{ prompt := none, response := some ("yo"), context := none }] }],
    by rfl,
    c7_batch_coordinator.2.2.2.1 c7cfg c7items _ (by rfl)⟩

end PrismaAirs
